import Mathlib

/-!
Verification of the `extension-bus` message-bus library.

The definitions below are a shallow embedding of the TypeScript source
(`src/index.ts`, together with the compiled build that additionally contains
`handleExternalRequest`, `callTab` and `callExtension`).  JavaScript values
passed through the bus are modelled by the small inductive `JSVal`; a thrown
JavaScript value is modelled by `ErrVal`; a `TypeError` raised while indexing
`undefined` is modelled by `Except.error ()`.
-/

/-- A JavaScript value carried as handler data / results. -/
inductive JSVal where
  | str (s : String)
  | num (n : Int)
  | null
deriving DecidableEq

/-- A thrown JavaScript value: either an `Error` instance (with `name` and
`message`), or an arbitrary non-`Error` value.  Mirrors the
`error instanceof Error` test in `handleError`. -/
inductive ErrVal where
  | jsError (name message : String)
  | value (v : JSVal)
deriving DecidableEq

/-- The observable behaviour of a handler function when invoked: return a
value synchronously, throw synchronously, return a promise that resolves,
or return a promise that rejects. -/
inductive HandlerBehavior where
  | syncVal (v : JSVal)
  | syncThrow (e : ErrVal)
  | asyncVal (v : JSVal)
  | asyncThrow (e : ErrVal)
deriving DecidableEq

/-- A node of the handler tree (`Handler | Handlers` in the source): either a
callable leaf or a nested block of named handlers. -/
inductive HValue where
  | fn (b : HandlerBehavior)
  | tree (ts : List (String × HValue))

/-- A block of named handlers (`Handlers` in the source), as a key/value list
(JavaScript object keys are unique; lookup takes the first match). -/
abbrev HTree := List (String × HValue)

/-- JavaScript property access `parent[segment]`: `some` the stored value, or
`none` for `undefined`. -/
def lookupKey (t : HTree) (k : String) : Option HValue :=
  (t.find? (fun e => e.1 == k)).map (fun e => e.2)

/-- The characters the path is split on: `path.split(/[/.]/)`. -/
def isSep (c : Char) : Bool := c = '/' || c = '.'

/-- JavaScript `String.prototype.split` restricted to a class of single
characters, written out over the character list.  Empty segments are kept,
exactly as in JavaScript (`"a//b".split(/[/.]/) = ["a","","b"]`,
`"".split(/[/.]/) = [""]`). -/
def splitOnAux (p : Char → Bool) : List Char → List Char → List String
  | [], acc => [String.mk acc.reverse]
  | c :: cs, acc =>
    if p c then String.mk acc.reverse :: splitOnAux p cs []
    else splitOnAux p cs (c :: acc)

/-- Split a character list from a fresh accumulator. -/
def splitChars (p : Char → Bool) (cs : List Char) : List String :=
  splitOnAux p cs []

/-- `path.split(/[/.]/)` from `getHandler`. -/
def splitPath (s : String) : List String :=
  splitChars isSep s.data

/-- The `while (segments.length > 0)` loop of `getHandler`.  `parent` is the
current `parent` variable, which the source only ever re-assigns to a
non-function child, i.e. a nested tree or `undefined` (`none`).  A falsy
(empty) segment is skipped.  Accessing a property of `undefined`
(`parent[segment]` with `parent = none`) throws a `TypeError`, modelled as
`Except.error ()`.  When the child is a function but segments remain, the
source does *not* descend: `parent` is left unchanged and the loop continues
in the same tree. -/
def getHandlerLoop : List String → Option HTree → Except Unit (Option HandlerBehavior)
  | [], _ => .ok none
  | seg :: rest, parent =>
    if seg = "" then getHandlerLoop rest parent
    else
      match parent with
      | none => .error ()
      | some t =>
        match lookupKey t seg with
        | some (HValue.fn b) =>
          if rest = [] then .ok (some b) else getHandlerLoop rest (some t)
        | some (HValue.tree t2) => getHandlerLoop rest (some t2)
        | none => getHandlerLoop rest none

/-- `getHandler(input, path)` from `src/index.ts`: resolve a nested handler
by path.  (The source returns `child.bind(parent)`; the binding does not
change which callable is returned, so the model returns the behaviour.) -/
def getHandler (t : HTree) (path : String) : Except Unit (Option HandlerBehavior) :=
  getHandlerLoop (splitPath path) (some t)

/-- The colon used by `makeRequest` to detect a `<target>:` path. -/
def isColon (c : Char) : Bool := c = ':'

/-- `path.includes(':')`. -/
def includesColon (s : String) : Bool := s.data.any isColon

/-- The request envelope `{ source, target, path, data }`. -/
structure BusRequest where
  source : String
  target : String
  path : String
  data : JSVal
deriving DecidableEq

/-- `makeRequest(source, target, path, data)` from `src/index.ts`:
`const [_target, _path] = path.includes(':') ? path.split(':') : [undefined, path]`
then `target: _target || target, path: _path`.  An empty `_target` (path
beginning with `:`) is falsy, so the configured target wins; with several
colons only the first two split parts are used, exactly as the destructuring
does. -/
def makeRequest (source target path : String) (data : JSVal) : BusRequest :=
  if includesColon path then
    let parts := splitChars isColon path.data
    let t := parts.headD ""
    { source := source
      target := if t = "" then target else t
      path := (parts.drop 1).headD ""
      data := data }
  else
    { source := source, target := target, path := path, data := data }

/-- The payload carried by a response envelope. -/
structure BusResponseError where
  code : String
  message : JSVal
  /-- the `type` field of the source's error object (absent for non-`Error`
  throwables and for the `no_handler` response) -/
  ty : Option String
deriving DecidableEq

/-- Exactly one of `result` / `error` per response, as the source constructs
them. -/
inductive RespPayload where
  | result (v : JSVal)
  | error (e : BusResponseError)
deriving DecidableEq

/-- The response envelope `{ target, result | error }` built by
`makeResponse`. -/
structure BusResponse where
  target : String
  payload : RespPayload
deriving DecidableEq

/-- The `no_handler` response sent by `handleRequest` when the request named
this bus: `{ error: { code: 'no_handler', message: 'No handler' } }`. -/
def noHandlerResponse (source : String) : BusResponse :=
  ⟨source, .error ⟨"no_handler", .str "No handler", none⟩⟩

/-- The error payload built by `handleError`:
`error instanceof Error ? { message: error.message, type: error.name } : { message: error }`,
spread after `{ code: 'handler_error' }`. -/
def mkHandlerErrorData (e : ErrVal) : BusResponseError :=
  match e with
  | .jsError n m => ⟨"handler_error", .str m, some n⟩
  | .value v => ⟨"handler_error", v, none⟩

/-- The full `handler_error` response sent by `handleError`. -/
def handlerErrorResponse (source : String) (e : ErrVal) : BusResponse :=
  ⟨source, .error (mkHandlerErrorData e)⟩

/-- The observable outcome of one `handleRequest` invocation: the list of
responses passed to `sendResponse` over the lifetime of the message (a
deferred async response is included after the synchronous ones), and whether
an exception escaped the listener (only `getHandler`'s `TypeError` can). -/
structure DispatchOutcome where
  responses : List BusResponse
  threw : Bool
deriving DecidableEq

/-- `handleRequest(request, sender, sendResponse)` from `src/index.ts`.

Control flow of the source, reproduced exactly:
* messages whose `target` is neither this bus's `source` nor `'*'` are
  ignored;
* the handler is resolved (this may throw, in which case nothing is sent and
  the exception escapes);
* a found handler is executed inside `try`: an async handler returns `true`
  early (so the trailing block below is skipped) and its response is sent on
  settlement; a sync result or sync throw sends immediately and then *falls
  through*;
* the trailing `if (target === source) return send(no_handler)` block runs
  whenever the request named this bus and the function has not already
  returned — including after a synchronous result or error response was
  already sent. -/
def handleRequest (source : String) (handlers : HTree) (req : BusRequest) : DispatchOutcome :=
  if req.target = source ∨ req.target = "*" then
    match getHandler handlers req.path with
    | .error _ => ⟨[], true⟩
    | .ok none =>
      if req.target = source then ⟨[noHandlerResponse source], false⟩ else ⟨[], false⟩
    | .ok (some b) =>
      match b with
      | .syncVal v =>
        ⟨⟨source, .result v⟩ ::
          (if req.target = source then [noHandlerResponse source] else []), false⟩
      | .syncThrow e =>
        ⟨handlerErrorResponse source e ::
          (if req.target = source then [noHandlerResponse source] else []), false⟩
      | .asyncVal v => ⟨[⟨source, .result v⟩], false⟩
      | .asyncThrow e => ⟨[handlerErrorResponse source e], false⟩
  else ⟨[], false⟩

/-- The structured error stored in `bus.error` and used by the error policy:
`{ code, message, target }`. -/
structure BusError where
  code : String
  message : JSVal
  target : String
deriving DecidableEq

/-- The `onError` option: `'warn'` (the default), `'reject'`, or a custom
resolver function.  (The source passes `(request, response, bus)` to a custom
resolver; the model passes the request and the raw response.) -/
inductive OnError where
  | warn
  | reject
  | custom (f : BusRequest → Option BusResponse → JSVal)

/-- The default of the `onError` option in the factory's destructuring:
`onError = 'warn'`. -/
def defaultOnError : OnError := .warn

/-- Observable events produced by the correlator (`call` / `handleResponse`):
assignments to `bus.error`, console warnings, and settlement of the call's
promise. -/
inductive Ev where
  | setError (e : Option BusError)
  | consoleWarn (s : String)
  | resolve (v : JSVal)
  | reject (e : BusError)
deriving DecidableEq

/-- `response?.error`, `none` when the response is absent or carries a
result. -/
def respErr : Option BusResponse → Option BusResponseError
  | some ⟨_, .error e⟩ => some e
  | _ => none

/-- The condition of `if (chromeError || !response || response.error)`:
truthiness of the non-empty chrome error string, absence of the response, or
presence of a (truthy, since it is an object) `error` field. -/
def isErrorBranch (chromeError : String) (response : Option BusResponse) : Bool :=
  chromeError ≠ "" || response.isNone || (respErr response).isSome

/-- `response?.error?.code || 'no_response'` (`||`, so an empty code string
also falls back). -/
def classifyCode (response : Option BusResponse) : String :=
  match respErr response with
  | some e => if e.code = "" then "no_response" else e.code
  | none => "no_response"

/-- `response?.error?.message ?? chromeError` (the trailing `?? 'Unknown'` is
unreachable because `chromeError` is always a string). -/
def classifyMessage (chromeError : String) (response : Option BusResponse) : JSVal :=
  match respErr response with
  | some e => e.message
  | none => .str chromeError

/-- `response?.error?.type || 'Error'`. -/
def classifyType (response : Option BusResponse) : String :=
  match respErr response with
  | some e =>
    match e.ty with
    | some t => if t = "" then "Error" else t
    | none => "Error"
  | none => "Error"

/-- The diagnostic target `` `${response?.target || request.target}:${request.path}` ``. -/
def classifyTarget (response : Option BusResponse) (request : BusRequest) : String :=
  (match response with
   | some r => if r.target = "" then request.target else r.target
   | none => request.target) ++ ":" ++ request.path

/-- The structured error object assigned to `bus.error` in the error branch
of `handleResponse`. -/
def structuredError (chromeError : String) (response : Option BusResponse)
    (request : BusRequest) : BusError :=
  ⟨classifyCode response, classifyMessage chromeError response,
    classifyTarget response request⟩

/-- How a `JSVal` renders inside a template literal. -/
def jsvalText : JSVal → String
  | .str s => s
  | .num n => toString n
  | .null => "null"

/-- The console warning written under the `warn` policy:
`` `extension-bus[${source}] ${type} at "${target}": ${message}` ``. -/
def warnText (source ty tgt : String) (message : JSVal) : String :=
  "extension-bus[" ++ source ++ "] " ++ ty ++ " at \"" ++ tgt ++ "\": " ++ jsvalText message

/-- `response.result` on the success path (the source's responses always
carry a `result` field there). -/
def resultValue : Option BusResponse → JSVal
  | some ⟨_, .result v⟩ => v
  | _ => .null

/-- `handleResponse(response, request, resolve, reject)` from `src/index.ts`,
as the ordered list of events it produces.

Error branch: set `bus.error` to the structured error, then
* `onError === 'reject'` → `reject(bus.error)`;
* `onError === 'warn'` → `console.warn(...)` unless the code is
  `'no_response'`, then `resolve(null)`;
* custom function → `resolve(onError(request, response, bus))`.

Success branch: `resolve(response.result)`. -/
def handleResponseEvents (source chromeError : String) (response : Option BusResponse)
    (request : BusRequest) (onError : OnError) : List Ev :=
  if isErrorBranch chromeError response then
    let err := structuredError chromeError response request
    Ev.setError (some err) ::
      (match onError with
       | .reject => [Ev.reject err]
       | .warn =>
         if classifyCode response ≠ "no_response" then
           [Ev.consoleWarn
              (warnText source (classifyType response) (classifyTarget response request)
                (classifyMessage chromeError response)),
            Ev.resolve .null]
         else [Ev.resolve .null]
       | .custom f => [Ev.resolve (f request response)])
  else
    [Ev.resolve (resultValue response)]

/-- One outbound `call(path, data)` as an event trace: `bus.error = null`
first, then the request is built with `makeRequest` and the single callback
invocation is handled by `handleResponse`. -/
def callEvents (source tgt path : String) (data : JSVal) (chromeError : String)
    (response : Option BusResponse) (onError : OnError) : List Ev :=
  Ev.setError none ::
    handleResponseEvents source chromeError response (makeRequest source tgt path data) onError

/-- `callTab(tabId, path, data)` builds its envelope as
`makeRequest(source, '*', path, data)`. -/
def callTabRequest (source path : String) (data : JSVal) : BusRequest :=
  makeRequest source "*" path data

/-- `callExtension(extensionId, path, data)` builds its envelope as
`makeRequest(source, '*', path, data)`. -/
def callExtensionRequest (source path : String) (data : JSVal) : BusRequest :=
  makeRequest source "*" path data

/-- The sender information passed to external predicates. -/
structure MessageSender where
  id : String
deriving DecidableEq

/-- The `external` option: a boolean flag, an allow-list of paths, or a
predicate over path and sender. -/
inductive ExternalOpt where
  | flag (b : Bool)
  | allowList (ps : List String)
  | pred (f : String → MessageSender → Bool)

/-- A well-formed externally-originated message (`{ path, data }`). -/
structure ExternalRequest where
  path : String
  data : JSVal

/-- JavaScript truthiness of `options.external`, which gates
`chrome.runtime.onMessageExternal.addListener(handleExternalRequest)`:
absent or `false` is falsy; `true`, any array (even empty) and any function
are truthy. -/
def externalTruthy : Option ExternalOpt → Bool
  | none => false
  | some (.flag b) => b
  | some (.allowList _) => true
  | some (.pred _) => true

/-- `handleExternalRequest(request, sender, sendResponse)` from the compiled
build.  Only a function-typed `options.external` is consulted:
a rejecting predicate answers with a bare `sendResponse()` (modelled as a
`none` response); any other shape of the option delegates unconditionally to
`handleRequest` with `{ source: 'external', target: '*' }`. -/
def handleExternalRequest (ext : ExternalOpt) (source : String) (handlers : HTree)
    (ereq : ExternalRequest) (sender : MessageSender) :
    List (Option BusResponse) × Bool :=
  match ext with
  | .pred f =>
    if f ereq.path sender then
      let out := handleRequest source handlers ⟨"external", "*", ereq.path, ereq.data⟩
      (out.responses.map some, out.threw)
    else ([none], false)
  | _ =>
    let out := handleRequest source handlers ⟨"external", "*", ereq.path, ereq.data⟩
    (out.responses.map some, out.threw)

/-- The end-to-end outcome for an externally-originated request: nothing at
all when the external listener was never registered (falsy option),
otherwise `handleExternalRequest`. -/
def dispatchExternal (ext : Option ExternalOpt) (source : String) (handlers : HTree)
    (ereq : ExternalRequest) (sender : MessageSender) :
    List (Option BusResponse) × Bool :=
  if externalTruthy ext then
    match ext with
    | some e => handleExternalRequest e source handlers ereq sender
    | none => ([], false)
  else ([], false)

/-- `c.replace('/', '.')` on a single character: the separator-respelling used
to compare slash-paths with dot-paths. -/
def slashToDot (c : Char) : Char := if c = '/' then '.' else c

/-- The error code carried by a response, if it carries an error at all. -/
def responseErrorCode (r : BusResponse) : Option String :=
  match r.payload with
  | .error e => some e.code
  | .result _ => none

/-- `ResolvesTo t segs b`: the segment list `segs` names the callable `b` at
exactly that nested location of `t` — every segment is non-empty, every
intermediate segment maps to a subtree, and the final segment maps to the
callable. -/
inductive ResolvesTo : HTree → List String → HandlerBehavior → Prop where
  | last {t : HTree} {s : String} {b : HandlerBehavior} :
      s ≠ "" → lookupKey t s = some (HValue.fn b) → ResolvesTo t [s] b
  | step {t : HTree} {s : String} {t2 : HTree} {rest : List String} {b : HandlerBehavior} :
      s ≠ "" → lookupKey t s = some (HValue.tree t2) → ResolvesTo t2 rest b →
      ResolvesTo t (s :: rest) b

theorem splitOnAux_ne_nil (p : Char → Bool) :
    ∀ (cs acc : List Char), splitOnAux p cs acc ≠ [] := by
  intro cs
  induction cs with
  | nil => intro acc; simp [splitOnAux]
  | cons x cs ih =>
    intro acc
    by_cases hx : p x = true <;> simp [splitOnAux, hx, ih]

theorem splitOnAux_append_sep (p : Char → Bool) (c : Char) (hc : p c = true)
    (v : List Char) :
    ∀ (u acc : List Char),
    splitOnAux p (u ++ c :: v) acc = splitOnAux p u acc ++ splitOnAux p v [] := by
  intro u
  induction u with
  | nil => intro acc; simp [splitOnAux, hc]
  | cons x u ih =>
    intro acc
    by_cases hx : p x = true <;> simp [splitOnAux, hx, ih]

theorem splitOnAux_no_sep (p : Char → Bool) :
    ∀ (cs : List Char), (∀ x ∈ cs, p x = false) →
    ∀ (acc : List Char), splitOnAux p cs acc = [String.mk (acc.reverse ++ cs)] := by
  intro cs
  induction cs with
  | nil => intro _ acc; simp [splitOnAux]
  | cons x cs ih =>
    intro h acc
    have hx : p x = false := h x (by simp)
    have ih2 := ih (fun y hy => h y (by simp [hy])) (x :: acc)
    simp only [splitOnAux, hx, Bool.false_eq_true, if_false, ih2,
      List.reverse_cons, List.append_assoc, List.cons_append, List.nil_append]

theorem isSep_slashToDot (c : Char) : isSep (slashToDot c) = isSep c := by
  by_cases h : c = '/'
  · subst h; decide
  · simp [slashToDot, h]

theorem splitOnAux_slashToDot :
    ∀ (cs acc : List Char),
    splitOnAux isSep (cs.map slashToDot) acc = splitOnAux isSep cs acc := by
  intro cs
  induction cs with
  | nil => intro acc; simp [splitOnAux]
  | cons x cs ih =>
    intro acc
    by_cases hx : isSep x = true
    · have h1 : isSep (slashToDot x) = true := by rw [isSep_slashToDot]; exact hx
      simp [splitOnAux, hx, h1, ih]
    · have h1 : isSep (slashToDot x) = false := by
        rw [isSep_slashToDot]; simpa using hx
      have h2 : slashToDot x = x := by
        have hxx : x ≠ '/' := by
          intro hxx; subst hxx; exact hx (by decide)
        simp [slashToDot, hxx]
      simp [splitOnAux, hx, h1, h2, ih]

theorem getHandlerLoop_drop_empty (B : List String) (hB : B ≠ []) :
    ∀ (A : List String) (parent : Option HTree),
    getHandlerLoop (A ++ "" :: B) parent = getHandlerLoop (A ++ B) parent := by
  intro A
  induction A with
  | nil => intro parent; simp [getHandlerLoop]
  | cons a A ih =>
    intro parent
    by_cases ha : a = ""
    · subst ha
      simp only [List.cons_append, getHandlerLoop, if_pos rfl]
      exact ih parent
    · simp only [List.cons_append, getHandlerLoop, if_neg ha]
      cases parent with
      | none => rfl
      | some t =>
        cases hk : lookupKey t a with
        | none => simp only [hk]; exact ih none
        | some v =>
          cases v with
          | fn b =>
            have h1 : ¬ (A ++ "" :: B = []) := by simp
            have h2 : ¬ (A ++ B = []) := by simp [hB]
            simp only [hk, List.append_eq]
            rw [if_neg h1, if_neg h2]
            exact ih (some t)
          | tree t2 => simp only [hk]; exact ih (some t2)

/-- Claim C10 (counterexample): resolution is not invariant under adding a
trailing separator — with the tree `{ a: f }`, the path `"a"` resolves to
`f`, but `"a/"` splits as `["a", ""]`, so the `segments.length === 0` check
fails at the callable and resolution returns nothing. -/
theorem trailing_separator_changes_resolution :
    getHandler [("a", HValue.fn (.syncVal (.num 1)))] "a" =
      .ok (some (.syncVal (.num 1))) ∧
    getHandler [("a", HValue.fn (.syncVal (.num 1)))] "a/" = .ok none := by
  constructor <;> rfl

/-- Claim C10 (amended): handler resolution splits the path on both `/` and
`.` and skips empty segments, so resolution is invariant under replacing any
`/` separator by `.`, under adding leading separators, and under repeating
an existing (non-final) separator; it is *not* invariant under adding a
trailing separator, which can change a resolved callable into no handler. -/
theorem resolution_separator_invariance (t : HTree) :
    (∀ cs : List Char,
      getHandler t (String.mk (cs.map slashToDot)) = getHandler t (String.mk cs)) ∧
    (∀ (c : Char) (cs : List Char), isSep c = true →
      getHandler t (String.mk (c :: cs)) = getHandler t (String.mk cs)) ∧
    (∀ (c : Char) (u v : List Char), isSep c = true →
      getHandler t (String.mk (u ++ c :: c :: v)) =
        getHandler t (String.mk (u ++ c :: v))) := by
  refine ⟨?_, ?_, ?_⟩
  · intro cs
    show getHandlerLoop (splitChars isSep (cs.map slashToDot)) (some t) =
      getHandlerLoop (splitChars isSep cs) (some t)
    rw [show splitChars isSep (cs.map slashToDot) = splitChars isSep cs from
      splitOnAux_slashToDot cs []]
  · intro c cs hc
    show getHandlerLoop (splitChars isSep (c :: cs)) (some t) =
      getHandlerLoop (splitChars isSep cs) (some t)
    have h1 : splitChars isSep (c :: cs) = "" :: splitChars isSep cs := by
      simp [splitChars, splitOnAux, hc]
    rw [h1]
    exact getHandlerLoop_drop_empty (splitChars isSep cs)
      (splitOnAux_ne_nil isSep cs []) [] (some t)
  · intro c u v hc
    show getHandlerLoop (splitChars isSep (u ++ c :: c :: v)) (some t) =
      getHandlerLoop (splitChars isSep (u ++ c :: v)) (some t)
    have h1 : splitChars isSep (u ++ c :: c :: v) =
        splitOnAux isSep u [] ++ "" :: splitChars isSep v := by
      have := splitOnAux_append_sep isSep c hc (c :: v) u []
      rw [splitChars, this]
      simp [splitChars, splitOnAux, hc]
    have h2 : splitChars isSep (u ++ c :: v) =
        splitOnAux isSep u [] ++ splitChars isSep v := by
      exact splitOnAux_append_sep isSep c hc v u []
    rw [h1, h2]
    exact getHandlerLoop_drop_empty (splitChars isSep v)
      (splitOnAux_ne_nil isSep v []) (splitOnAux isSep u []) (some t)

/-- Witness for the amended C10 theorem at a concrete instance: a leading
`/` does not change resolution of `"a"`. -/
theorem resolution_separator_invariance_witness :
    isSep '/' = true ∧
    getHandler [("a", HValue.fn (.syncVal (.num 1)))] (String.mk ('/' :: "a".data)) =
      getHandler [("a", HValue.fn (.syncVal (.num 1)))] (String.mk "a".data) :=
  ⟨by decide,
    (resolution_separator_invariance [("a", HValue.fn (.syncVal (.num 1)))]).2.1
      '/' "a".data (by decide)⟩

/-- Claim C3 (counterexample): resolution is not total and does not fail on
every mid-path callable.  On the empty tree, the path `"a/b"` assigns
`parent = undefined` at segment `a` and then throws a `TypeError` indexing
`undefined` at segment `b`; and with `{ a: f, b: g }`, the path `"a/b"`
meets the callable `f` mid-path yet resolves to `g` (the walk continues in
the same tree) instead of returning no handler. -/
theorem resolution_throws_and_skips_midpath_callable :
    getHandler ([] : HTree) "a/b" = .error () ∧
    getHandler [("a", HValue.fn (.syncVal (.num 1))),
                ("b", HValue.fn (.syncVal (.num 2)))] "a/b" =
      .ok (some (.syncVal (.num 2))) := by
  constructor <;> rfl

/-- Claim C3 (amended): if every intermediate segment of the path maps to a
subtree and the final segment maps to a callable (all segments non-empty),
resolution returns exactly that callable; and a missing *final* segment
yields no handler without throwing.  (The original claim fails in the other
cases: a missing intermediate segment throws a `TypeError`, and a callable
met before the final segment is skipped, not treated as a failure.) -/
theorem resolution_finds_nested_callable :
    (∀ (t : HTree) (segs : List String) (b : HandlerBehavior),
      ResolvesTo t segs b → getHandlerLoop segs (some t) = .ok (some b)) ∧
    (∀ (t : HTree) (s : String), s ≠ "" → lookupKey t s = none →
      getHandlerLoop [s] (some t) = .ok none) := by
  constructor
  · intro t segs b h
    induction h with
    | last hs hk =>
      simp [getHandlerLoop, hs, hk]
    | step hs hk _ ih =>
      rename_i t0 s0 t2 rest b0 hres
      have hrest : rest ≠ [] := by cases hres <;> simp
      simp only [getHandlerLoop, if_neg hs, hk]
      exact ih
  · intro t s hs hk
    simp [getHandlerLoop, hs, hk]

/-- Witness for the amended C3 theorem: in `{ a: { b: f } }`, the path
segments `["a", "b"]` resolve to `f`. -/
theorem resolution_finds_nested_callable_witness :
    ResolvesTo [("a", HValue.tree [("b", HValue.fn (.syncVal (.num 3)))])]
      ["a", "b"] (.syncVal (.num 3)) ∧
    getHandlerLoop ["a", "b"]
      (some [("a", HValue.tree [("b", HValue.fn (.syncVal (.num 3)))])]) =
      .ok (some (.syncVal (.num 3))) := by
  have hres : ResolvesTo [("a", HValue.tree [("b", HValue.fn (.syncVal (.num 3)))])]
      ["a", "b"] (.syncVal (.num 3)) :=
    ResolvesTo.step (by decide) rfl (ResolvesTo.last (by decide) rfl)
  exact ⟨hres, (resolution_finds_nested_callable).1 _ _ _ hres⟩

/-- Claim C7: a path carrying an explicit `<name>:` prefix (a non-empty name
with no colon of its own) always overrides the bus's configured default
target — the built request's `target` is the prefixed name, whatever the
default was. -/
theorem explicit_target_overrides_default
    (source dflt name rest : String) (data : JSVal)
    (hname : name ≠ "") (hnc : ∀ c ∈ name.data, isColon c = false) :
    (makeRequest source dflt (name ++ ":" ++ rest) data).target = name := by
  have hdata : (name ++ ":" ++ rest).data = name.data ++ ':' :: rest.data := by
    rw [String.data_append, String.data_append]
    simp [show (":" : String).data = [':'] from rfl]
  have hinc : includesColon (name ++ ":" ++ rest) = true := by
    unfold includesColon
    rw [hdata]
    simp [isColon]
  have hsplit : splitChars isColon (name ++ ":" ++ rest).data =
      name :: splitChars isColon rest.data := by
    rw [hdata]
    show splitOnAux isColon (name.data ++ ':' :: rest.data) [] =
      name :: splitOnAux isColon rest.data []
    rw [splitOnAux_append_sep isColon ':' rfl rest.data name.data []]
    rw [splitOnAux_no_sep isColon name.data hnc []]
    simp
  simp only [makeRequest, hinc, if_true, hsplit, List.headD_cons]
  exact if_neg hname

/-- Witness for the C7 theorem: `call('store:getUser')` on a bus whose
default target is `'background'` addresses `'store'`. -/
theorem explicit_target_overrides_default_witness :
    (("store" : String) ≠ "" ∧ ∀ c ∈ ("store" : String).data, isColon c = false) ∧
    (makeRequest "app" "background" ("store" ++ ":" ++ "getUser") JSVal.null).target =
      "store" :=
  ⟨⟨by decide, by decide⟩,
    explicit_target_overrides_default "app" "background" "store" "getUser" JSVal.null
      (by decide) (by decide)⟩

/-- Claim C8 (counterexample): `callTab` does not force the wildcard for
*every* path — its envelope still goes through `makeRequest`, so a path with
an explicit `<name>:` target, such as `"bg:foo"`, overrides the forced `'*'`
and the envelope's target is `"bg"`. -/
theorem calltab_colon_path_escapes_wildcard :
    (callTabRequest "app" "bg:foo" JSVal.null).target = "bg" ∧
    (("bg" : String) ≠ "*") := by
  constructor
  · rfl
  · decide

/-- Claim C8 (amended): for every call made through `callTab` or
`callExtension` whose path does not contain a colon, the request envelope's
target field is the wildcard `'*'`, regardless of the bus's configured
default target; a `<name>:`-prefixed path still overrides the wildcard. -/
theorem calltab_callextension_wildcard_target (source path : String) (data : JSVal)
    (h : includesColon path = false) :
    (callTabRequest source path data).target = "*" ∧
    (callExtensionRequest source path data).target = "*" := by
  unfold callTabRequest callExtensionRequest makeRequest
  simp [h]

/-- Witness for the amended C8 theorem: a plain path `"foo"` from a bus whose
own default target is `"background"` is sent to `'*'` by both call shapes. -/
theorem calltab_callextension_wildcard_target_witness :
    includesColon "foo" = false ∧
    ((callTabRequest "app" "foo" JSVal.null).target = "*" ∧
      (callExtensionRequest "app" "foo" JSVal.null).target = "*") :=
  ⟨by decide, calltab_callextension_wildcard_target "app" "foo" JSVal.null (by decide)⟩

/-- Claim C1: for a bus with a specific (non-wildcard) source name, a
`no_handler` error response is only ever produced when the inbound request's
target equals that source name; a wildcard-targeted request that resolves no
handler produces no response at all; and the correlator classifies an absent
response as `no_response` (never `no_handler`). -/
theorem no_handler_only_for_named_target (source : String) (hs : source ≠ "*")
    (handlers : HTree) (req : BusRequest) :
    (∀ r ∈ (handleRequest source handlers req).responses,
        responseErrorCode r = some "no_handler" → req.target = source) ∧
    (req.target = "*" → (∀ b, getHandler handlers req.path ≠ .ok (some b)) →
        (handleRequest source handlers req).responses = []) ∧
    (∀ (chromeError : String) (request : BusRequest),
        (structuredError chromeError none request).code = "no_response" ∧
        ("no_response" : String) ≠ "no_handler") := by
  refine ⟨?_, ?_, ?_⟩
  · intro r hr
    by_cases ht : req.target = source
    · intro _; exact ht
    · intro hcode
      exfalso
      by_cases hw : req.target = "*"
      · have hacc : req.target = source ∨ req.target = "*" := Or.inr hw
        unfold handleRequest at hr
        rw [if_pos hacc] at hr
        cases hget : getHandler handlers req.path with
        | error e =>
          rw [hget] at hr
          simp at hr
        | ok ho =>
          rw [hget] at hr
          cases ho with
          | none =>
            rw [if_neg ht] at hr
            simp at hr
          | some b =>
            cases b with
            | syncVal v =>
              simp only [if_neg ht] at hr
              simp at hr
              subst hr
              simp [responseErrorCode] at hcode
            | syncThrow e =>
              simp only [if_neg ht] at hr
              simp at hr
              subst hr
              cases e <;> simp [responseErrorCode, handlerErrorResponse, mkHandlerErrorData] at hcode
            | asyncVal v =>
              simp at hr
              subst hr
              simp [responseErrorCode] at hcode
            | asyncThrow e =>
              simp at hr
              subst hr
              cases e <;> simp [responseErrorCode, handlerErrorResponse, mkHandlerErrorData] at hcode
      · unfold handleRequest at hr
        rw [if_neg (by tauto)] at hr
        simp at hr
  · intro hw hnb
    have ht : ¬ req.target = source := by rw [hw]; exact fun h => hs h.symm
    unfold handleRequest
    rw [if_pos (Or.inr hw)]
    cases hget : getHandler handlers req.path with
    | error e => rfl
    | ok ho =>
      cases ho with
      | none => rw [if_neg ht]
      | some b => exact absurd hget (hnb b)
  · intro ce request
    exact ⟨rfl, by decide⟩

/-- Witness for the C1 theorem: the bus `'background'` receiving a wildcard
broadcast for a path it has no handler for stays silent. -/
theorem no_handler_only_for_named_target_witness :
    (("background" : String) ≠ "*") ∧
    ((∀ r ∈ (handleRequest "background" [] ⟨"app", "*", "x", JSVal.null⟩).responses,
        responseErrorCode r = some "no_handler" →
          (⟨"app", "*", "x", JSVal.null⟩ : BusRequest).target = "background") ∧
      ((⟨"app", "*", "x", JSVal.null⟩ : BusRequest).target = "*" →
        (∀ b, getHandler [] (⟨"app", "*", "x", JSVal.null⟩ : BusRequest).path ≠
          .ok (some b)) →
        (handleRequest "background" [] ⟨"app", "*", "x", JSVal.null⟩).responses = []) ∧
      (∀ (chromeError : String) (request : BusRequest),
        (structuredError chromeError none request).code = "no_response" ∧
        ("no_response" : String) ≠ "no_handler")) :=
  ⟨by decide,
    no_handler_only_for_named_target "background" (by decide) [] ⟨"app", "*", "x", JSVal.null⟩⟩

/-- Claim C2 (the code violates it): when a synchronous handler result has
been sent for a request that *named* this bus, control falls through the
`if (handler ...)` block into the trailing `if (target === source)` block —
whose own comment reads "reached named target, but no handler" — and a
second, `no_handler`, response is sent for the same message.  Concretely:
bus `'background'` with handler `{ greet: () => 1 }` receiving
`{ target: 'background', path: 'greet' }` invokes `sendResponse` twice. -/
theorem sync_result_followed_by_no_handler_response :
    handleRequest "background" [("greet", HValue.fn (.syncVal (.num 1)))]
        ⟨"popup", "background", "greet", JSVal.null⟩ =
      ⟨[⟨"background", .result (.num 1)⟩, noHandlerResponse "background"], false⟩ ∧
    (handleRequest "background" [("greet", HValue.fn (.syncVal (.num 1)))]
        ⟨"popup", "background", "greet", JSVal.null⟩).responses.length = 2 := by
  constructor
  · rfl
  · rfl

/-- Claim C5: for every thrown error value, a handler that throws it
synchronously and a handler whose returned promise rejects with it produce
the identical `handler_error` response (same code, same message content, and
for `Error` instances the error's name as the type), and in neither case
does the exception escape the dispatcher into the host listener. -/
theorem sync_throw_equals_async_reject (E : ErrVal) (source : String)
    (t1 t2 : HTree) (req : BusRequest)
    (hacc : req.target = source ∨ req.target = "*")
    (h1 : getHandler t1 req.path = .ok (some (.syncThrow E)))
    (h2 : getHandler t2 req.path = .ok (some (.asyncThrow E))) :
    (handleRequest source t1 req).responses.head? =
      some (handlerErrorResponse source E) ∧
    (handleRequest source t2 req).responses =
      [handlerErrorResponse source E] ∧
    (mkHandlerErrorData E).code = "handler_error" ∧
    (∀ n m, E = .jsError n m →
      (mkHandlerErrorData E).message = .str m ∧ (mkHandlerErrorData E).ty = some n) ∧
    (handleRequest source t1 req).threw = false ∧
    (handleRequest source t2 req).threw = false := by
  have e1 : handleRequest source t1 req =
      ⟨handlerErrorResponse source E ::
        (if req.target = source then [noHandlerResponse source] else []), false⟩ := by
    unfold handleRequest
    rw [if_pos hacc, h1]
  have e2 : handleRequest source t2 req = ⟨[handlerErrorResponse source E], false⟩ := by
    unfold handleRequest
    rw [if_pos hacc, h2]
  refine ⟨?_, ?_, ?_, ?_, ?_, ?_⟩
  · rw [e1]; rfl
  · rw [e2]
  · cases E <;> rfl
  · intro n m hE
    subst hE
    exact ⟨rfl, rfl⟩
  · rw [e1]
  · rw [e2]

/-- Witness for the C5 theorem: a `TypeError('boom')` thrown synchronously
and rejected asynchronously at path `'fail'` of bus `'background'`. -/
theorem sync_throw_equals_async_reject_witness :
    ((⟨"app", "background", "fail", JSVal.null⟩ : BusRequest).target = "background" ∨
      (⟨"app", "background", "fail", JSVal.null⟩ : BusRequest).target = "*") ∧
    (handleRequest "background" [("fail", HValue.fn (.syncThrow (.jsError "TypeError" "boom")))]
        ⟨"app", "background", "fail", JSVal.null⟩).responses.head? =
      some (handlerErrorResponse "background" (.jsError "TypeError" "boom")) ∧
    (handleRequest "background" [("fail", HValue.fn (.asyncThrow (.jsError "TypeError" "boom")))]
        ⟨"app", "background", "fail", JSVal.null⟩).responses =
      [handlerErrorResponse "background" (.jsError "TypeError" "boom")] :=
  ⟨Or.inl rfl,
    (sync_throw_equals_async_reject (.jsError "TypeError" "boom") "background"
      [("fail", HValue.fn (.syncThrow (.jsError "TypeError" "boom")))]
      [("fail", HValue.fn (.asyncThrow (.jsError "TypeError" "boom")))]
      ⟨"app", "background", "fail", JSVal.null⟩ (Or.inl rfl) rfl rfl).1,
    (sync_throw_equals_async_reject (.jsError "TypeError" "boom") "background"
      [("fail", HValue.fn (.syncThrow (.jsError "TypeError" "boom")))]
      [("fail", HValue.fn (.asyncThrow (.jsError "TypeError" "boom")))]
      ⟨"app", "background", "fail", JSVal.null⟩ (Or.inl rfl) rfl rfl).2.1⟩

/-- Claim C4: for every call whose callback is classified as an error, the
`reject` policy rejects the promise with the structured error object and
never resolves; the `warn` policy (which is also the construction default)
always resolves with `null`, never rejects, and writes exactly one console
line — naming the bus, the error type and the qualified `target:path` — that
is suppressed precisely when the code is `no_response`. -/
theorem error_policy_reject_and_warn (source chromeError : String)
    (response : Option BusResponse) (request : BusRequest)
    (h : isErrorBranch chromeError response = true) :
    (Ev.reject (structuredError chromeError response request) ∈
        handleResponseEvents source chromeError response request .reject ∧
      ∀ v, Ev.resolve v ∉ handleResponseEvents source chromeError response request .reject) ∧
    (Ev.resolve .null ∈ handleResponseEvents source chromeError response request .warn ∧
      (∀ e, Ev.reject e ∉ handleResponseEvents source chromeError response request .warn) ∧
      (∀ s, Ev.consoleWarn s ∈ handleResponseEvents source chromeError response request .warn →
        s = warnText source (classifyType response) (classifyTarget response request)
              (classifyMessage chromeError response)) ∧
      ((∃ s, Ev.consoleWarn s ∈
          handleResponseEvents source chromeError response request .warn) ↔
        classifyCode response ≠ "no_response")) ∧
    defaultOnError = .warn := by
  refine ⟨⟨?_, ?_⟩, ⟨?_, ?_, ?_, ?_⟩, rfl⟩
  · simp [handleResponseEvents, h]
  · intro v; simp [handleResponseEvents, h]
  · by_cases hc : classifyCode response = "no_response" <;>
      simp [handleResponseEvents, h, hc]
  · intro e
    by_cases hc : classifyCode response = "no_response" <;>
      simp [handleResponseEvents, h, hc]
  · intro s hsmem
    by_cases hc : classifyCode response = "no_response"
    · simp [handleResponseEvents, h, hc] at hsmem
    · simp [handleResponseEvents, h, hc] at hsmem
      exact hsmem
  · by_cases hc : classifyCode response = "no_response" <;>
      simp [handleResponseEvents, h, hc]

/-- Witness for the C4 theorem: no response at all (chrome reports a closed
port) under both policies. -/
theorem error_policy_reject_and_warn_witness :
    isErrorBranch "The message port closed before a response was received." none = true ∧
    (Ev.reject (structuredError "The message port closed before a response was received."
        none ⟨"app", "*", "x", JSVal.null⟩) ∈
      handleResponseEvents "app" "The message port closed before a response was received."
        none ⟨"app", "*", "x", JSVal.null⟩ .reject) :=
  ⟨by decide,
    (error_policy_reject_and_warn "app"
      "The message port closed before a response was received." none
      ⟨"app", "*", "x", JSVal.null⟩ (by decide)).1.1⟩

/-- Claim C6: every outbound call first resets `bus.error` to `null`; when
the callback is classified as an error, `bus.error` is assigned the
structured error object before any policy event (and no later event touches
it); when the call succeeds, the only assignment in the whole trace is the
initial reset, so `bus.error` stays `null` after a successful call. -/
theorem bus_error_reset_and_set_before_policy (source tgt path : String)
    (data : JSVal) (chromeError : String) (response : Option BusResponse)
    (onError : OnError) :
    (callEvents source tgt path data chromeError response onError).head? =
      some (.setError none) ∧
    (isErrorBranch chromeError response = true →
      ∃ rest,
        handleResponseEvents source chromeError response
            (makeRequest source tgt path data) onError =
          .setError (some (structuredError chromeError response
            (makeRequest source tgt path data))) :: rest ∧
        ∀ e, Ev.setError e ∉ rest) ∧
    (isErrorBranch chromeError response = false →
      ∃ v, handleResponseEvents source chromeError response
          (makeRequest source tgt path data) onError = [.resolve v]) := by
  refine ⟨rfl, ?_, ?_⟩
  · intro h
    unfold handleResponseEvents
    rw [if_pos h]
    refine ⟨_, rfl, ?_⟩
    intro e
    cases onError with
    | reject => simp
    | warn =>
      by_cases hc : classifyCode response = "no_response" <;> simp [hc]
    | custom f => simp
  · intro h
    unfold handleResponseEvents
    rw [if_neg (by simp [h])]
    exact ⟨_, rfl⟩

/-- Witness for the C6 theorem: a successful call (response carrying a
result, no chrome error) leaves `bus.error` at `null`: the trace is the
reset followed by a single resolution. -/
theorem bus_error_reset_and_set_before_policy_witness :
    (callEvents "app" "background" "greet" JSVal.null ""
        (some ⟨"background", .result (.str "hi")⟩) .warn).head? =
      some (.setError none) ∧
    (isErrorBranch "" (some ⟨"background", .result (.str "hi")⟩) = false ∧
      ∃ v, handleResponseEvents "app" "" (some ⟨"background", .result (.str "hi")⟩)
          (makeRequest "app" "background" "greet" JSVal.null) .warn = [.resolve v]) :=
  ⟨(bus_error_reset_and_set_before_policy "app" "background" "greet" JSVal.null ""
      (some ⟨"background", .result (.str "hi")⟩) .warn).1,
    by decide,
    (bus_error_reset_and_set_before_policy "app" "background" "greet" JSVal.null ""
      (some ⟨"background", .result (.str "hi")⟩) .warn).2.2 (by decide)⟩

/-- Claim C9 (the code violates it): the external allow-list is not
enforced.  `handleExternalRequest` consults `options.external` only when it
is a function; with `external: ['account/login']` a request for the path
`'evil'` — not in the allow-list — is still dispatched (with the source
tagged `'external'` and the target forced to `'*'`) and, the bus having a
handler there, a full result response is sent back to the external caller.
Moreover, when a predicate *does* reject, the code answers with a bare
`sendResponse()` (an `undefined` response) instead of staying silent. -/
theorem external_allowlist_not_enforced :
    (("evil" : String) ∉ (["account/login"] : List String)) ∧
    dispatchExternal (some (.allowList ["account/login"])) "background"
        [("evil", HValue.fn (.syncVal (.num 7)))] ⟨"evil", JSVal.null⟩
        ⟨"other-extension"⟩ =
      ([some ⟨"background", .result (.num 7)⟩], false) ∧
    dispatchExternal (some (.pred (fun _ _ => false))) "background"
        [("evil", HValue.fn (.syncVal (.num 7)))] ⟨"evil", JSVal.null⟩
        ⟨"other-extension"⟩ =
      ([none], false) := by
  refine ⟨by decide, ?_, ?_⟩
  · rfl
  · rfl
